import Mathlib

/-!
Verification development for the dynamo CLI deployment core:
the configuration resolver (`resolve_service_config`, modelled from the
spec because its implementation lives in `cli/utils.py`, outside the
provided sources) and the deployment orchestrator (`create_deployment`,
embedded from `src/deploy/dynamo/sdk/src/dynamo/sdk/cli/deployment.py`).

Python strings are embedded as `List Char`; Python dicts (which preserve
insertion order) are embedded as association lists; `sys.exit` / returns
become the `CreateOutcome` inductive; the remote cloud client is an
explicit capability record.
-/

namespace DynamoCLI

/-- Embedding of a Python `str` as a list of characters. -/
abbrev Str := List Char

/-- The open-brace character, written via its code point. -/
def lbraceC : Char := Char.ofNat 123

/-- The close-brace character, written via its code point. -/
def rbraceC : Char := Char.ofNat 125

/-- Boolean test: `pat` occurs at the start of `l` (Python `str.startswith`). -/
def startsWithL : Str → Str → Bool
  | _, [] => true
  | [], _ :: _ => false
  | c :: t, p :: pt => c = p && startsWithL t pt

/-- Boolean test: `pat` occurs somewhere inside `hay` (Python `pat in hay`). -/
def containsSub (hay pat : Str) : Bool :=
  match hay with
  | [] => startsWithL [] pat
  | c :: t => startsWithL (c :: t) pat || containsSub t pat

/-- Split a list at the first occurrence of `sep`, dropping the separator;
`none` when `sep` does not occur (Python `s.split(sep, 1)` shape). -/
def splitFirst (sep : Char) : Str → Option (Str × Str)
  | [] => none
  | c :: t =>
    if c = sep then some ([], t)
    else match splitFirst sep t with
      | some (a, b) => some (c :: a, b)
      | none => none

/-- Remove every trailing backslash (Python `s.rstrip(chr(92))`). -/
def stripTrailingBackslashes (l : Str) : Str :=
  (l.reverse.dropWhile (fun c => c = '\\')).reverse

/-- JSON-compatible configuration values, mirroring what `json.loads` /
`json.dumps` handle.  Floating-point literals are modelled as exact
rationals: the only float operations the CLI performs are literal parsing
and decimal re-serialization, on which the models agree for the decimal
literals in scope. -/
inductive JValue where
  | null
  | bool (b : Bool)
  | int (n : Int)
  | float (q : Rat)
  | str (s : Str)
  | arr (xs : List JValue)
  | obj (kvs : List (Str × JValue))

/-- Per-service attribute mapping (insertion-ordered, like a Python dict). -/
abbrev ServiceConfig := List (Str × JValue)

/-- Merged ServiceName → ServiceConfig mapping (insertion-ordered). -/
abbrev ResolvedConfig := List (Str × ServiceConfig)

/-- Association-list lookup by key (Python `d.get(k)`). -/
def lookupA {α : Type} : List (Str × α) → Str → Option α
  | [], _ => none
  | (k', v) :: t, k => if k' = k then some v else lookupA t k

/-- Association-list insert-or-overwrite preserving insertion order
(Python `d[k] = v` on an insertion-ordered dict). -/
def setA {α : Type} : List (Str × α) → Str → α → List (Str × α)
  | [], k, v => [(k, v)]
  | (k', v') :: t, k, v =>
    if k' = k then (k', v) :: t else (k', v') :: setA t k v

/-- Whitespace test for the JSON reader. -/
def isWsC (c : Char) : Bool :=
  c = ' ' || c = '\n' || c = '\t' || c = '\r'

/-- Decimal-digit test. -/
def isDigitC (c : Char) : Bool :=
  '0' ≤ c && c ≤ '9'

/-- Numeric value of a decimal digit character. -/
def digitVal (c : Char) : Nat := c.toNat - 48

/-- Character for a decimal digit value. -/
def digitChar (n : Nat) : Char := Char.ofNat (48 + n)

/-- Decimal digits to a natural number, most significant first. -/
def digitsToNat (ds : Str) : Nat :=
  ds.foldl (fun a c => a * 10 + digitVal c) 0

/-- Leading run of decimal digits and the remainder. -/
def takeDigits (l : Str) : Str × Str :=
  (l.takeWhile isDigitC, l.dropWhile isDigitC)

/-- Modelled from the spec: JSON string body after the opening quote, as
read by `json.loads` (the `utils.py` resolver and the stdlib `json` module
are not under `src/`).  Handles the standard single-character escapes;
returns the decoded characters and the input after the closing quote. -/
def readStrBody : Nat → Str → Option (Str × Str)
  | 0, _ => none
  | _ + 1, [] => none
  | fuel + 1, c :: rest =>
    if c = '"' then some ([], rest)
    else if c = '\\' then
      match rest with
      | [] => none
      | e :: rest2 =>
        let dec : Option Char :=
          if e = '"' then some '"'
          else if e = '\\' then some '\\'
          else if e = '/' then some '/'
          else if e = 'n' then some '\n'
          else if e = 't' then some '\t'
          else if e = 'r' then some '\r'
          else none
        match dec with
        | none => none
        | some ch =>
          match readStrBody fuel rest2 with
          | some (s, r) => some (ch :: s, r)
          | none => none
    else
      match readStrBody fuel rest with
      | some (s, r) => some (c :: s, r)
      | none => none

/-- Modelled from the spec: a JSON number (sign, digits, optional fraction,
optional exponent).  Produces `.int` when there is neither fraction nor
exponent, `.float` otherwise, the float held as an exact rational. -/
def readNumber (l : Str) : Option (JValue × Str) :=
  let signed : Bool × Str :=
    match l with
    | '-' :: t => (true, t)
    | _ => (false, l)
  let neg := signed.1
  let l1 := signed.2
  let ipRest := takeDigits l1
  let ip := ipRest.1
  if ip.isEmpty then none
  else
    let fracPart : Option Str × Str :=
      match ipRest.2 with
      | '.' :: t =>
        let d := takeDigits t
        (some d.1, d.2)
      | r => (none, r)
    match fracPart.1 with
    | some fs =>
      if fs.isEmpty then none
      else
        match readExp fracPart.2 with
        | none => none
        | some (e, rest) =>
          some (.float (mkRat neg ip fs e), rest)
    | none =>
      match readExp fracPart.2 with
      | none => none
      | some (e, rest) =>
        if e = 0 ∧ ¬ hasExpMarker fracPart.2 then
          some (.int (if neg then -(digitsToNat ip : Int) else (digitsToNat ip : Int)), rest)
        else
          some (.float (mkRat neg ip [] e), rest)
where
  /-- Optional exponent part: `none` on a malformed exponent, otherwise the
  exponent value (0 when absent) and the remaining input. -/
  readExp : Str → Option (Int × Str)
    | 'e' :: t => readExpTail t
    | 'E' :: t => readExpTail t
    | r => some (0, r)
  readExpTail : Str → Option (Int × Str)
    | '-' :: t =>
      let d := takeDigits t
      if d.1.isEmpty then none else some (-(digitsToNat d.1 : Int), d.2)
    | '+' :: t =>
      let d := takeDigits t
      if d.1.isEmpty then none else some ((digitsToNat d.1 : Int), d.2)
    | t =>
      let d := takeDigits t
      if d.1.isEmpty then none else some ((digitsToNat d.1 : Int), d.2)
  hasExpMarker : Str → Bool
    | 'e' :: _ => true
    | 'E' :: _ => true
    | _ => false
  mkRat (neg : Bool) (ip fs : Str) (e : Int) : Rat :=
    let base : Rat := (digitsToNat (ip ++ fs) : Rat) / ((10 : Rat) ^ fs.length)
    let v := base * (10 : Rat) ^ e
    if neg then -v else v

mutual

/-- Modelled from the spec: recursive JSON reader (`json.loads` core),
fuel-bounded for termination; `readJ` reads one value and returns the rest
of the input. -/
def readJ : Nat → Str → Option (JValue × Str)
  | 0, _ => none
  | fuel + 1, input =>
    match input.dropWhile isWsC with
    | [] => none
    | c :: rest =>
      if c = '"' then
        match readStrBody (rest.length + 1) rest with
        | some (s, r) => some (.str s, r)
        | none => none
      else if c = lbraceC then
        readObjItems fuel (rest.dropWhile isWsC) true
      else if c = '[' then
        readArrItems fuel (rest.dropWhile isWsC) true
      else if startsWithL (c :: rest) ("true".toList) then
        some (.bool true, (c :: rest).drop 4)
      else if startsWithL (c :: rest) ("false".toList) then
        some (.bool false, (c :: rest).drop 5)
      else if startsWithL (c :: rest) ("null".toList) then
        some (.null, (c :: rest).drop 4)
      else
        readNumber (c :: rest)

/-- Modelled from the spec: items of a JSON array after `[`; `first` is
true before any item has been read. -/
def readArrItems : Nat → Str → Bool → Option (JValue × Str)
  | 0, _, _ => none
  | fuel + 1, input, first =>
    match input with
    | [] => none
    | c :: rest =>
      if c = ']' ∧ first then some (.arr [], rest)
      else
        match readJ fuel input with
        | none => none
        | some (v, r) =>
          match r.dropWhile isWsC with
          | ']' :: r2 => some (.arr [v], r2)
          | ',' :: r2 =>
            match readArrItems fuel (r2.dropWhile isWsC) false with
            | some (.arr vs, r3) => some (.arr (v :: vs), r3)
            | _ => none
          | _ => none

/-- Modelled from the spec: members of a JSON object after the opening
brace; `first` is true before any member has been read. -/
def readObjItems : Nat → Str → Bool → Option (JValue × Str)
  | 0, _, _ => none
  | fuel + 1, input, first =>
    match input with
    | [] => none
    | c :: rest =>
      if c = rbraceC ∧ first then some (.obj [], rest)
      else if c = '"' then
        match readStrBody (rest.length + 1) rest with
        | none => none
        | some (k, r) =>
          match r.dropWhile isWsC with
          | ':' :: r2 =>
            match readJ fuel r2 with
            | none => none
            | some (v, r3) =>
              match r3.dropWhile isWsC with
              | c2 :: r4 =>
                if c2 = rbraceC then some (.obj [(k, v)], r4)
                else if c2 = ',' then
                  match readObjItems fuel (r4.dropWhile isWsC) false with
                  | some (.obj kvs, r5) => some (.obj ((k, v) :: kvs), r5)
                  | _ => none
                else none
              | [] => none
          | _ => none
      else none

end

/-- Modelled from the spec: `json.loads` — read one JSON document and
require only whitespace after it. -/
def jsonLoads (l : Str) : Option JValue :=
  match readJ (l.length + 1) l with
  | some (v, r) => if (r.dropWhile isWsC).isEmpty then some v else none
  | none => none

/-- Decimal rendering of a natural number. -/
def natDigitsAux : Nat → Nat → Str
  | 0, _ => []
  | fuel + 1, n =>
    if n < 10 then [digitChar n]
    else natDigitsAux fuel (n / 10) ++ [digitChar (n % 10)]

/-- Decimal rendering of a natural number (entry point). -/
def natToChars (n : Nat) : Str := natDigitsAux (n + 1) n

/-- Decimal rendering of an integer. -/
def intToChars (i : Int) : Str :=
  if i < 0 then '-' :: natToChars i.natAbs else natToChars i.natAbs

/-- Fractional digits of a rational in `[0, 1)`, fuel-bounded. -/
def fracDigits : Nat → Rat → Str
  | 0, _ => []
  | fuel + 1, q =>
    if q = 0 then []
    else
      let d : Nat := ((q * 10).floor).toNat
      digitChar d :: fracDigits fuel (q * 10 - (d : Rat))

/-- Decimal rendering of a nonnegative rational as a float literal
(`repr` of a Python float on the exact-decimal values in scope). -/
def renderFloatNonneg (q : Rat) : Str :=
  let ip := q.floor.toNat
  let fr := q - q.floor
  natToChars ip ++ '.' :: (if fr = 0 then ['0'] else fracDigits 32 fr)

/-- Decimal rendering of a rational as a float literal. -/
def renderFloat (q : Rat) : Str :=
  if q < 0 then '-' :: renderFloatNonneg (-q) else renderFloatNonneg q

/-- JSON escape of one character inside a string literal. -/
def escChar (c : Char) : Str :=
  if c = '"' then ['\\', '"']
  else if c = '\\' then ['\\', '\\']
  else if c = '\n' then ['\\', 'n']
  else if c = '\t' then ['\\', 't']
  else if c = '\r' then ['\\', 'r']
  else [c]

/-- JSON string literal for `s`. -/
def quoteJ (s : Str) : Str :=
  '"' :: (s.map escChar).flatten ++ ['"']

/-- Join rendered items with the `json.dumps` default item separator. -/
def commaJoin : List Str → Str
  | [] => []
  | [x] => x
  | x :: y :: t => x ++ ',' :: ' ' :: commaJoin (y :: t)

mutual

/-- Modelled from the spec: `json.dumps` with default separators. -/
def dumpJ : JValue → Str
  | .null => "null".toList
  | .bool true => "true".toList
  | .bool false => "false".toList
  | .int n => intToChars n
  | .float q => renderFloat q
  | .str s => quoteJ s
  | .arr xs => '[' :: commaJoin (dumpJList xs) ++ [']']
  | .obj kvs => lbraceC :: commaJoin (dumpJPairs kvs) ++ [rbraceC]

/-- Rendered items of a JSON array. -/
def dumpJList : List JValue → List Str
  | [] => []
  | v :: t => dumpJ v :: dumpJList t

/-- Rendered members of a JSON object, `"key": value` each. -/
def dumpJPairs : List (Str × JValue) → List Str
  | [] => []
  | (k, v) :: t => (quoteJ k ++ ':' :: ' ' :: dumpJ v) :: dumpJPairs t

end

/-- Serialized form of a resolved configuration: the JSON object whose keys
are service names in insertion order (`json.dumps(service_configs)` at
`deployment.py:78`). -/
def serializeConfig (cfg : ResolvedConfig) : Str :=
  dumpJ (.obj (cfg.map (fun p => (p.1, JValue.obj p.2))))

/-- Errors of the configuration resolver (the spec's `ConfigParseError`). -/
inductive ConfigParseError where
  | fileError (reason : Str)
  | tokenError (token : Str)
deriving DecidableEq

/-- Modelled from the spec: coercion of a raw override value string — JSON
parse when it looks like JSON (starts with a brace or bracket), otherwise
boolean literals first, then integer, then floating-point, then string. -/
def coerceValue (v : Str) : JValue :=
  if v.head? = some lbraceC ∨ v.head? = some '[' then
    match jsonLoads v with
    | some j => j
    | none => .str v
  else if v = "true".toList then .bool true
  else if v = "false".toList then .bool false
  else
    match parseIntLit v with
    | some n => .int n
    | none =>
      match parseFloatLit v with
      | some q => .float q
      | none => .str v
where
  parseIntLit (l : Str) : Option Int :=
    let signed : Bool × Str :=
      match l with
      | '-' :: t => (true, t)
      | '+' :: t => (false, t)
      | _ => (false, l)
    if signed.2.isEmpty then none
    else if signed.2.all isDigitC then
      some (if signed.1 then -(digitsToNat signed.2 : Int) else (digitsToNat signed.2 : Int))
    else none
  parseFloatLit (l : Str) : Option Rat :=
    let signed : Bool × Str :=
      match l with
      | '-' :: t => (true, t)
      | '+' :: t => (false, t)
      | _ => (false, l)
    let ipRest := takeDigits signed.2
    let fracPart : Str × Str :=
      match ipRest.2 with
      | '.' :: t => takeDigits t
      | r => ([], r)
    if ipRest.1.isEmpty ∧ fracPart.1.isEmpty then none
    else
      let expPart : Option (Int × Str) :=
        match fracPart.2 with
        | 'e' :: t => readFloatExp t
        | 'E' :: t => readFloatExp t
        | r => some (0, r)
      match expPart with
      | none => none
      | some (e, rest) =>
        if rest.isEmpty then
          let base : Rat :=
            (digitsToNat (ipRest.1 ++ fracPart.1) : Rat) / ((10 : Rat) ^ fracPart.1.length)
          let val := base * (10 : Rat) ^ e
          some (if signed.1 then -val else val)
        else none
  readFloatExp (t : Str) : Option (Int × Str) :=
    match t with
    | '-' :: t2 =>
      let d := takeDigits t2
      if d.1.isEmpty then none else some (-(digitsToNat d.1 : Int), d.2)
    | '+' :: t2 =>
      let d := takeDigits t2
      if d.1.isEmpty then none else some ((digitsToNat d.1 : Int), d.2)
    | t2 =>
      let d := takeDigits t2
      if d.1.isEmpty then none else some ((digitsToNat d.1 : Int), d.2)

/-- Modelled from the spec: split one CLI token of the override shape
`--ServiceName.attribute=value` into its segments.  `ok none` means the
token does not match the override shape and is ignored; an override-shaped
token with an empty service or attribute segment is a `ConfigParseError`
naming the token. -/
def parseOverrideToken (tok : Str) : Except ConfigParseError (Option (Str × Str × Str)) :=
  if startsWithL tok ("--".toList) then
    match splitFirst '=' (tok.drop 2) with
    | none => .ok none
    | some (path, value) =>
      match splitFirst '.' path with
      | none => .ok none
      | some (svc, attr) =>
        if svc.isEmpty ∨ attr.isEmpty then .error (.tokenError tok)
        else .ok (some (svc, attr, value))
  else .ok none

/-- Modelled from the spec: insert/overwrite one resolved configuration
entry, creating the service's mapping when the service is new. -/
def setConfig (cfg : ResolvedConfig) (svc attr : Str) (v : JValue) : ResolvedConfig :=
  setA cfg svc (setA ((lookupA cfg svc).getD []) attr v)

/-- Modelled from the spec: apply one override token to the configuration. -/
def applyOverride (cfg : ResolvedConfig) (tok : Str) : Except ConfigParseError ResolvedConfig :=
  match parseOverrideToken tok with
  | .error e => .error e
  | .ok none => .ok cfg
  | .ok (some (svc, attr, value)) => .ok (setConfig cfg svc attr (coerceValue value))

/-- Modelled from the spec: apply override tokens strictly in the given
order, after the file contents. -/
def applyOverrides (cfg : ResolvedConfig) : List Str → Except ConfigParseError ResolvedConfig
  | [] => .ok cfg
  | tok :: rest =>
    match applyOverride cfg tok with
    | .error e => .error e
    | .ok cfg' => applyOverrides cfg' rest

/-- Convert a parsed JSON document's members into per-service mappings;
fails when a top-level value is not itself a mapping. -/
def servicesOf : List (Str × JValue) → Option ResolvedConfig
  | [] => some []
  | (k, .obj attrs) :: t =>
    match servicesOf t with
    | some c => some ((k, attrs) :: c)
    | none => none
  | _ => none

/-- Modelled from the spec: parse the configuration file text into a
ResolvedConfig (top level must be ServiceName → attribute mapping).  The
model reads the JSON subset of the accepted YAML/JSON surface. -/
def parseConfigFile (text : Str) : Except ConfigParseError ResolvedConfig :=
  match jsonLoads text with
  | none => .error (.fileError ("config file is not a valid mapping".toList))
  | some (.obj kvs) =>
    match servicesOf kvs with
    | some c => .ok c
    | none => .error (.fileError ("top-level values must be service mappings".toList))
  | some _ => .error (.fileError ("config file top level must be a mapping".toList))

/-- Modelled from the spec: `resolve_service_config` (implemented in
`cli/utils.py`, which is not under `src/`): parse the optional file, then
apply the override tokens in order. -/
def resolve_service_config (config_file : Option Str) (args : Option (List Str)) :
    Except ConfigParseError ResolvedConfig :=
  match (match config_file with
         | none => Except.ok ([] : ResolvedConfig)
         | some text => parseConfigFile text) with
  | .error e => .error e
  | .ok base => applyOverrides base (args.getD [])

/-- Value stored in the resolved configuration for one
(ServiceName, attribute) path, if any. -/
def lookupConfig (cfg : ResolvedConfig) (svc attr : Str) : Option JValue :=
  match lookupA cfg svc with
  | some sc => lookupA sc attr
  | none => none

/-- Coerced value an override token assigns to the given
(ServiceName, attribute) path, if the token is a well-formed override for
exactly that path. -/
def overrideTargets (tok svc attr : Str) : Option JValue :=
  match parseOverrideToken tok with
  | .ok (some (s, a, v)) =>
    if s = svc ∧ a = attr then some (coerceValue v) else none
  | _ => none

/-- Value assigned to the given path by the LAST override token that
targets it, if any. -/
def lastOverrideFor (toks : List Str) (svc attr : Str) : Option JValue :=
  match toks with
  | [] => none
  | tok :: rest =>
    match lastOverrideFor rest svc attr with
    | some v => some v
    | none => overrideTargets tok svc attr

/-- Remote-assigned deployment identity (`bentoml` `Deployment` handle as
observed by `create_deployment`). -/
structure Deployment where
  name : Str
  cluster : Str
deriving DecidableEq

/-- A remote rejection (`BentoMLException`): HTTP error code plus the
free-text message `str(e)`. -/
structure BackendError where
  error_code : Nat
  msg : Str
deriving DecidableEq

/-- Poll status reported by the remote backend during the wait phase. -/
inductive PollStatus where
  | ready
  | pending
  | failed
deriving DecidableEq

/-- Terminal result of the poll loop. -/
inductive PollResult where
  | ready
  | timedOut
  | failed
deriving DecidableEq

/-- The remote cloud client capability used by one create invocation: the
immediate result of the submit call, and (for the wait phase) the status
the backend would report at each instant together with the latency of each
status check. -/
structure Backend where
  createResult : Except BackendError Deployment
  status : Nat → PollStatus
  stepOf : Nat → Nat

/-- Modelled from the spec: the poll loop behind `wait_until_ready`
(implemented by the external cloud client, not under `src/`).  The deadline
is computed once before the first check; each iteration checks the clock
against that fixed deadline, queries the status, and otherwise sleeps —
`stepOf now + 1` models one sleep-and-check of at least one tick.  Returns
the terminal result and the clock value on exit. -/
def pollLoop (status : Nat → PollStatus) (stepOf : Nat → Nat) (deadline : Nat) (now : Nat) :
    PollResult × Nat :=
  if _h : deadline < now then (.timedOut, now)
  else
    match status now with
    | .ready => (.ready, now)
    | .failed => (.failed, now)
    | .pending => pollLoop status stepOf deadline (now + stepOf now + 1)
termination_by deadline + 1 - now
decreasing_by omega

/-- Modelled from the spec: the return code `wait_until_ready` hands back —
zero when the deployment became ready, nonzero otherwise. -/
def waitRetcode : PollResult → Nat
  | .ready => 0
  | .timedOut => 1
  | .failed => 1

/-- Environment entries attached to the deployment request
(`deployment.py:76-80`): one `DYN_DEPLOYMENT_CONFIG` entry holding the
serialized configuration when the resolved configuration is non-empty
(Python dict truthiness), otherwise none at all. -/
def buildEnvDicts (service_configs : ResolvedConfig) : List (Str × Str) :=
  if service_configs.isEmpty then []
  else [("DYN_DEPLOYMENT_CONFIG".toList, serializeConfig service_configs)]

/-- The deployment request value (`DeploymentConfigParameters` at
`deployment.py:82-89`), as far as this core populates it. -/
structure DeploymentConfigParameters where
  name : Option Str
  bento : Option Str
  envs : List (Str × Str)
  dev : Bool
deriving DecidableEq

/-- Request construction in `create_deployment` (`deployment.py:82-89`). -/
def buildConfigParams (name bento : Option Str) (dev : Bool)
    (service_configs : ResolvedConfig) : DeploymentConfigParameters :=
  ⟨name, bento, buildEnvDicts service_configs, dev⟩

/-- Terminal behavior of one `create_deployment` invocation: the returned
handle, or the observable exit taken (`sys.exit` with the message the code
printed first), or a propagated configuration error. -/
inductive CreateOutcome where
  | returned (d : Deployment)
  | conflictExit (depName : Option Str)
  | errorExit (msg : Str)
  | waitExit (retcode : Nat)
  | configFailure (e : ConfigParseError)
deriving DecidableEq

/-- Remote calls issued during one invocation, in order. -/
inductive BackendCall where
  | createCall
  | pollCall
deriving DecidableEq

/-- Longest quote-free leading run of a string and the remainder (which is
empty or starts with a quote). -/
def spanNotQuote : Str → Str × Str
  | [] => ([], [])
  | c :: t =>
    if c = '"' then ([], c :: t)
    else
      let p := spanNotQuote t
      (c :: p.1, p.2)

/-- Try to match the conflict-name pattern at the head of the message: an
opening quote, a nonempty run of non-quote characters, a closing quote,
then the literal continuation of the backend's conflict message.  This is
the meaning of one anchored attempt of the regex at `deployment.py:118`;
the lazily-matched group followed by the optional backslash run and the
caller's `.rstrip` amount to stripping trailing backslashes from the
quoted text. -/
def matchConflictAt (l : Str) : Option Str :=
  match l with
  | [] => none
  | c :: rest =>
    if c = '"' then
      match spanNotQuote rest with
      | (_, []) => none
      | (inner, _ :: rest2) =>
        if inner.isEmpty then none
        else if startsWithL rest2 (" already exists".toList) then
          some (stripTrailingBackslashes inner)
        else none
    else none

/-- `re.search` of the conflict-name pattern: try each start position from
the left, first match wins (`deployment.py:118`). -/
def searchConflict : Str → Option Str
  | [] => none
  | c :: cs =>
    match matchConflictAt (c :: cs) with
    | some r => some r
    | none => searchConflict cs

/-- Embedding of `raise_deployment_config_error` (`deployment.py:52-59`):
the message of the exception it raises.  Used by the get/delete/list
commands, not by `create_deployment`. -/
def raise_deployment_config_error (err : BackendError) (action : Str) : Str :=
  if err.error_code = 401 then
    err.msg ++ "\n* Dynamo Cloud API token is required for authorization. Run `dynamo cloud login` command to login".toList
  else
    "Failed to ".toList ++ action ++ " deployment due to invalid configuration: ".toList ++ err.msg

/-- Embedding of `create_deployment` (`deployment.py:62-128`): resolve the
service configuration, build the request, verify it (the external
`config_params.verify()` is the `verify` capability), submit, and either
return the handle, wait for readiness, or classify the rejection.  Also
returns the list of remote calls issued, in order. -/
def create_deployment (config_file : Option Str) (args : Option (List Str))
    (name bento : Option Str) (dev : Bool) (wait : Bool) (timeout : Nat)
    (verify : DeploymentConfigParameters → Option Str) (backend : Backend) :
    CreateOutcome × List BackendCall :=
  match resolve_service_config config_file args with
  | .error e => (.configFailure e, [])
  | .ok service_configs =>
    let config_params := buildConfigParams name bento dev service_configs
    match verify config_params with
    | some emsg => (.errorExit emsg, [])
    | none =>
      match backend.createResult with
      | .ok deployment =>
        if wait then
          let retcode := waitRetcode (pollLoop backend.status backend.stepOf timeout 0).1
          if retcode = 0 then (.returned deployment, [.createCall, .pollCall])
          else (.waitExit retcode, [.createCall, .pollCall])
        else (.returned deployment, [.createCall])
      | .error e =>
        if containsSub e.msg ("already exists".toList) then
          let dep_name : Option Str :=
            match searchConflict e.msg with
            | some s => some s
            | none => name
          (.conflictExit dep_name, [.createCall])
        else (.errorExit e.msg, [.createCall])

/-! ### Theorems about the claims -/

/-- C7: override value coercion tries the boolean literals first, then
integer, then floating-point, then string, except that a value beginning
with a brace or bracket is parsed as JSON: `3` coerces to the integer 3,
`0.5` to the float one half, `hello` to the string `hello`, and a
brace-led JSON object text to the corresponding nested object. -/
theorem coercion_ladder_examples :
    coerceValue ("3".toList) = JValue.int 3 ∧
    coerceValue ("0.5".toList) = JValue.float (1 / 2) ∧
    coerceValue ("hello".toList) = JValue.str ("hello".toList) ∧
    coerceValue ("\x7b\"k\":1\x7d".toList) = JValue.obj [("k".toList, JValue.int 1)] ∧
    coerceValue ("[1, 2]".toList) = JValue.arr [JValue.int 1, JValue.int 2] ∧
    coerceValue ("true".toList) = JValue.bool true ∧
    coerceValue ("false".toList) = JValue.bool false :=
  ⟨rfl, by with_unfolding_all rfl, rfl, rfl, rfl, rfl, rfl⟩

/-- C5: resolution is deterministic — identical file and override inputs
give byte-identical serialized output — and serialization iterates service
and attribute keys in insertion order, witnessed by the end-to-end golden
byte string (overrides in token order, `Frontend` before `Middle`). -/
theorem resolve_deterministic_and_ordered :
    (∀ (f1 f2 : Option Str) (o1 o2 : Option (List Str)),
      f1 = f2 → o1 = o2 →
      (resolve_service_config f1 o1).map serializeConfig
        = (resolve_service_config f2 o2).map serializeConfig) ∧
    (resolve_service_config (some ("\x7b\x7d".toList))
        (some ["--Frontend.model=qwentastic".toList, "--Middle.bias=0.5".toList])).map
        serializeConfig
      = .ok ("\x7b\"Frontend\": \x7b\"model\": \"qwentastic\"\x7d, \"Middle\": \x7b\"bias\": 0.5\x7d\x7d".toList) := by
  constructor
  · intro f1 f2 o1 o2 hf ho
    rw [hf, ho]
  · with_unfolding_all rfl

/-- Witness for C5 at concrete inputs. -/
theorem resolve_deterministic_and_ordered_witness :
    (resolve_service_config (some ("\x7b\x7d".toList)) (some ["--A.x=1".toList])).map serializeConfig
      = (resolve_service_config (some ("\x7b\x7d".toList)) (some ["--A.x=1".toList])).map serializeConfig :=
  resolve_deterministic_and_ordered.1 _ _ _ _ rfl rfl

/-- C10: when the resolved service configuration is empty, the deployment
request is built with no environment entries at all — in particular no
`DYN_DEPLOYMENT_CONFIG` variable holding an empty object. -/
theorem empty_config_no_env_entry :
    ∀ (cf : Option Str) (args : Option (List Str)) (name bento : Option Str) (dev : Bool)
      (scfg : ResolvedConfig),
      resolve_service_config cf args = .ok scfg →
      scfg = [] →
      (buildConfigParams name bento dev scfg).envs = [] := by
  intro cf args name bento dev scfg _ hempty
  subst hempty
  rfl

/-- Witness for C10: no file and no matching override tokens resolve to the
empty configuration, whose request carries no environment entry. -/
theorem empty_config_no_env_entry_witness :
    (buildConfigParams (some ("n".toList)) (some ("b".toList)) false []).envs = [] :=
  empty_config_no_env_entry none (some ["--no-wait".toList]) _ _ false [] rfl rfl

/-- C3: with `wait = false`, a successful submit returns the created
deployment handle immediately and the only remote call issued is the
create call — no poll call occurs. -/
theorem no_wait_returns_immediately :
    ∀ (cf : Option Str) (args : Option (List Str)) (name bento : Option Str) (dev : Bool)
      (timeout : Nat) (verify : DeploymentConfigParameters → Option Str) (backend : Backend)
      (scfg : ResolvedConfig) (d : Deployment),
      resolve_service_config cf args = .ok scfg →
      verify (buildConfigParams name bento dev scfg) = none →
      backend.createResult = .ok d →
      create_deployment cf args name bento dev false timeout verify backend
        = (.returned d, [.createCall]) := by
  intro cf args name bento dev timeout verify backend scfg d hres hver hcr
  simp only [create_deployment, hres, hver, hcr]
  simp

/-- Witness for C3 at a concrete invocation. -/
theorem no_wait_returns_immediately_witness :
    create_deployment none none none none false false 7 (fun _ => none)
        ⟨.ok ⟨"svc".toList, "c".toList⟩, fun _ => .pending, fun _ => 0⟩
      = (.returned ⟨"svc".toList, "c".toList⟩, [.createCall]) :=
  no_wait_returns_immediately none none none none false 7 (fun _ => none)
    ⟨.ok ⟨"svc".toList, "c".toList⟩, fun _ => .pending, fun _ => 0⟩ [] ⟨"svc".toList, "c".toList⟩
    rfl rfl rfl

/-- C2 counterexample: an unauthorized rejection (HTTP 401) of a create
submit produces exactly the same terminal outcome as a generic rejection
(HTTP 500) with the same message — the generic error exit — so no distinct
AuthRequired classification is produced by `create_deployment`. -/
theorem unauthorized_not_distinguished :
    create_deployment none none (some ("req".toList)) none false false 10 (fun _ => none)
        ⟨.error ⟨401, "Unauthorized".toList⟩, fun _ => .pending, fun _ => 0⟩
      = (.errorExit ("Unauthorized".toList), [.createCall]) ∧
    create_deployment none none (some ("req".toList)) none false false 10 (fun _ => none)
        ⟨.error ⟨500, "Unauthorized".toList⟩, fun _ => .pending, fun _ => 0⟩
      = (.errorExit ("Unauthorized".toList), [.createCall]) :=
  ⟨rfl, rfl⟩

/-- C2 amended: every non-conflict rejection of the create submit —
unauthorized rejections included, whatever the HTTP code — takes the one
generic failure path: the backend message is printed and the process exits
with code 1; the distinct unauthorized handling of
`raise_deployment_config_error` is not invoked by `create_deployment`. -/
theorem nonconflict_error_generic_exit :
    ∀ (cf : Option Str) (args : Option (List Str)) (name bento : Option Str) (dev wait : Bool)
      (timeout : Nat) (verify : DeploymentConfigParameters → Option Str) (backend : Backend)
      (scfg : ResolvedConfig) (e : BackendError),
      resolve_service_config cf args = .ok scfg →
      verify (buildConfigParams name bento dev scfg) = none →
      backend.createResult = .error e →
      containsSub e.msg ("already exists".toList) = false →
      create_deployment cf args name bento dev wait timeout verify backend
        = (.errorExit e.msg, [.createCall]) := by
  intro cf args name bento dev wait timeout verify backend scfg e hres hver hcr hmsg
  simp only [create_deployment, hres, hver, hcr, hmsg]
  simp

/-- Witness for the amended C2 at an unauthorized concrete rejection. -/
theorem nonconflict_error_generic_exit_witness :
    create_deployment none none none none false true 10 (fun _ => none)
        ⟨.error ⟨401, "Unauthorized. Run dynamo cloud login".toList⟩, fun _ => .pending, fun _ => 0⟩
      = (.errorExit ("Unauthorized. Run dynamo cloud login".toList), [.createCall]) :=
  nonconflict_error_generic_exit none none none none false true 10 (fun _ => none)
    ⟨.error ⟨401, "Unauthorized. Run dynamo cloud login".toList⟩, fun _ => .pending, fun _ => 0⟩
    [] ⟨401, "Unauthorized. Run dynamo cloud login".toList⟩ rfl rfl rfl (by decide)

/-- C9: a configuration-resolution error or a configuration-validation
error terminates the invocation before any remote call: the outcome is the
corresponding error and the list of remote calls issued is empty. -/
theorem config_error_fails_fast :
    ∀ (cf : Option Str) (args : Option (List Str)) (name bento : Option Str) (dev wait : Bool)
      (timeout : Nat) (verify : DeploymentConfigParameters → Option Str) (backend : Backend),
      (∀ e, resolve_service_config cf args = .error e →
        create_deployment cf args name bento dev wait timeout verify backend
          = (.configFailure e, [])) ∧
      (∀ scfg m, resolve_service_config cf args = .ok scfg →
        verify (buildConfigParams name bento dev scfg) = some m →
        create_deployment cf args name bento dev wait timeout verify backend
          = (.errorExit m, [])) := by
  intro cf args name bento dev wait timeout verify backend
  constructor
  · intro e he
    simp only [create_deployment, he]
  · intro scfg m hres hver
    simp only [create_deployment, hres, hver]

/-- Witness for C9: a malformed override aborts with no remote call, and a
validation failure aborts with no remote call. -/
theorem config_error_fails_fast_witness :
    create_deployment none (some ["--.x=1".toList]) none none false true 10 (fun _ => none)
        ⟨.ok ⟨"svc".toList, "c".toList⟩, fun _ => .pending, fun _ => 0⟩
      = (.configFailure (.tokenError ("--.x=1".toList)), []) ∧
    create_deployment none none none none false true 10 (fun _ => some ("Bento is required".toList))
        ⟨.ok ⟨"svc".toList, "c".toList⟩, fun _ => .pending, fun _ => 0⟩
      = (.errorExit ("Bento is required".toList), []) :=
  ⟨(config_error_fails_fast none (some ["--.x=1".toList]) none none false true 10 (fun _ => none)
      ⟨.ok ⟨"svc".toList, "c".toList⟩, fun _ => .pending, fun _ => 0⟩).1
      (.tokenError ("--.x=1".toList)) rfl,
   (config_error_fails_fast none none none none false true 10
      (fun _ => some ("Bento is required".toList))
      ⟨.ok ⟨"svc".toList, "c".toList⟩, fun _ => .pending, fun _ => 0⟩).2
      [] ("Bento is required".toList) rfl rfl⟩

/-- C8: an override-shaped token (double-dash, an equals sign, a dotted
path) with an empty ServiceName or attribute segment fails resolution with
a `ConfigParseError` naming the offending token, while tokens that do not
match the override shape at all — no double-dash lead, no equals sign, or
no dot in the path — are silently ignored. -/
theorem override_shape_errors_and_ignores :
    resolve_service_config none (some ["--.x=1".toList])
      = .error (.tokenError ("--.x=1".toList)) ∧
    resolve_service_config none (some ["--A.=1".toList])
      = .error (.tokenError ("--A.=1".toList)) ∧
    (∀ (cfg : ResolvedConfig) (tok path value svc attr : Str),
      startsWithL tok ("--".toList) = true →
      splitFirst '=' (tok.drop 2) = some (path, value) →
      splitFirst '.' path = some (svc, attr) →
      svc = [] ∨ attr = [] →
      applyOverride cfg tok = .error (.tokenError tok)) ∧
    (∀ (cfg : ResolvedConfig) (tok : Str),
      startsWithL tok ("--".toList) = false →
      applyOverride cfg tok = .ok cfg) ∧
    (∀ (cfg : ResolvedConfig) (tok : Str),
      splitFirst '=' (tok.drop 2) = none →
      applyOverride cfg tok = .ok cfg) ∧
    (∀ (cfg : ResolvedConfig) (tok path value : Str),
      splitFirst '=' (tok.drop 2) = some (path, value) →
      splitFirst '.' path = none →
      applyOverride cfg tok = .ok cfg) ∧
    applyOverrides [] ["--no-wait".toList, "-f".toList, "config.yaml".toList, "--name=foo".toList]
      = .ok [] := by
  refine ⟨rfl, rfl, ?_, ?_, ?_, ?_, rfl⟩
  · intro cfg tok path value svc attr hdd hsplit hdot hempty
    have hemptyB : (svc.isEmpty ∨ attr.isEmpty) := by
      rcases hempty with h | h <;> simp [h]
    simp only [applyOverride, parseOverrideToken, hdd, hsplit, hdot, if_pos hemptyB]
    simp
  · intro cfg tok hdd
    have hdd' : startsWithL tok ['-', '-'] = false := hdd
    simp [applyOverride, parseOverrideToken, hdd']
  · intro cfg tok hsplit
    by_cases hdd : startsWithL tok ['-', '-'] = true
    · simp [applyOverride, parseOverrideToken, hdd, hsplit]
    · simp [applyOverride, parseOverrideToken, hdd]
  · intro cfg tok path value hsplit hdot
    by_cases hdd : startsWithL tok ['-', '-'] = true
    · simp [applyOverride, parseOverrideToken, hdd, hsplit, hdot]
    · simp [applyOverride, parseOverrideToken, hdd]

/-- Witness for C8: a concrete empty-service error, a concrete ignored
flag, a concrete token without an equals sign, and a concrete dotless
path. -/
theorem override_shape_errors_and_ignores_witness :
    applyOverride [] ("--.y=2".toList) = .error (.tokenError ("--.y=2".toList)) ∧
    applyOverride [] ("positional".toList) = .ok [] ∧
    applyOverride [] ("--no-wait".toList) = .ok [] ∧
    applyOverride [] ("--name=foo".toList) = .ok [] :=
  ⟨override_shape_errors_and_ignores.2.2.1 [] ("--.y=2".toList) (".y".toList) ("2".toList)
      [] ("y".toList) (by decide) (by decide) (by decide) (Or.inl rfl),
   override_shape_errors_and_ignores.2.2.2.1 [] ("positional".toList) (by decide),
   override_shape_errors_and_ignores.2.2.2.2.1 [] ("--no-wait".toList) (by decide),
   override_shape_errors_and_ignores.2.2.2.2.2.1 [] ("--name=foo".toList) ("name".toList)
      ("foo".toList) (by decide) (by decide)⟩

theorem lookupA_setA_self {α : Type} (l : List (Str × α)) (k : Str) (v : α) :
    lookupA (setA l k v) k = some v := by
  induction l with
  | nil => simp [setA, lookupA]
  | cons p t ih =>
    obtain ⟨k', v'⟩ := p
    by_cases h : k' = k
    · simp [setA, lookupA, h]
    · simp [setA, lookupA, h, ih]

theorem lookupA_setA_ne {α : Type} (l : List (Str × α)) (k k2 : Str) (v : α)
    (h : ¬ k2 = k) : lookupA (setA l k v) k2 = lookupA l k2 := by
  have h' : ¬ k = k2 := fun e => h e.symm
  induction l with
  | nil => simp [setA, lookupA, h']
  | cons p t ih =>
    obtain ⟨k', v'⟩ := p
    by_cases hk : k' = k
    · subst hk
      have h2 : ¬ k' = k2 := h'
      simp [setA, lookupA, h2]
    · simp [setA, lookupA, hk, ih]

theorem lookupConfig_setConfig (cfg : ResolvedConfig) (svc attr svc' attr' : Str) (v : JValue) :
    lookupConfig (setConfig cfg svc attr v) svc' attr' =
      if svc' = svc ∧ attr' = attr then some v else lookupConfig cfg svc' attr' := by
  by_cases hs : svc' = svc
  · subst hs
    by_cases ha : attr' = attr
    · subst ha
      simp [lookupConfig, setConfig, lookupA_setA_self]
    · have h1 := lookupA_setA_ne ((lookupA cfg svc').getD []) attr attr' v ha
      simp only [lookupConfig, setConfig, lookupA_setA_self, h1, ha, and_false, if_false]
      cases hb : lookupA cfg svc' with
      | none => simp [lookupA]
      | some sc => simp
  · have h2 := lookupA_setA_ne cfg svc svc' (setA ((lookupA cfg svc).getD []) attr v) hs
    simp [lookupConfig, setConfig, h2, hs]

/-- C6: overrides are applied strictly after the file and in token order —
whenever applying the override tokens succeeds, the value found in the
resolved configuration at any (ServiceName, attribute) path is the value
of the LAST override token targeting that path (duplicates do not raise an
error), and the file's value only where no override targets the path. -/
theorem overrides_last_write_wins :
    ∀ (toks : List Str) (cfg cfg' : ResolvedConfig) (svc attr : Str),
      applyOverrides cfg toks = .ok cfg' →
      lookupConfig cfg' svc attr =
        match lastOverrideFor toks svc attr with
        | some v => some v
        | none => lookupConfig cfg svc attr := by
  intro toks
  induction toks with
  | nil =>
    intro cfg cfg' svc attr h
    simp only [applyOverrides] at h
    cases h
    rfl
  | cons tok rest ih =>
    intro cfg cfg' svc attr h
    simp only [applyOverrides] at h
    cases hp : applyOverride cfg tok with
    | error e => rw [hp] at h; cases h
    | ok c1 =>
      rw [hp] at h
      have hrest := ih c1 cfg' svc attr h
      rw [applyOverride] at hp
      cases hpt : parseOverrideToken tok with
      | error e => rw [hpt] at hp; cases hp
      | ok o =>
        rw [hpt] at hp
        cases o with
        | none =>
          cases hp
          rw [hrest]
          cases hl : lastOverrideFor rest svc attr with
          | some w => simp [lastOverrideFor, hl]
          | none => simp [lastOverrideFor, hl, overrideTargets, hpt]
        | some triple =>
          obtain ⟨s, a, val⟩ := triple
          cases hp
          rw [hrest]
          cases hl : lastOverrideFor rest svc attr with
          | some w => simp [lastOverrideFor, hl]
          | none =>
            simp only [lastOverrideFor, hl, overrideTargets, hpt]
            rw [lookupConfig_setConfig]
            by_cases hsa : svc = s ∧ attr = a
            · obtain ⟨h1, h2⟩ := hsa
              simp [h1, h2]
            · have hsa' : ¬ (s = svc ∧ a = attr) := by
                intro ⟨h1, h2⟩; exact hsa ⟨h1.symm, h2.symm⟩
              simp [hsa, hsa']

/-- Witness for C6 at the spec's example: file value `1` for `A.x` is
overridden by `--A.x=2`, and of duplicate overrides the last wins. -/
theorem overrides_last_write_wins_witness :
    lookupConfig [("A".toList, [("x".toList, JValue.int 2)])] ("A".toList) ("x".toList) =
      (match lastOverrideFor ["--A.x=5".toList, "--A.x=2".toList] ("A".toList) ("x".toList) with
       | some v => some v
       | none => lookupConfig [("A".toList, [("x".toList, JValue.int 1)])] ("A".toList) ("x".toList)) ∧
    lookupConfig [("A".toList, [("x".toList, JValue.int 2)])] ("A".toList) ("x".toList)
      = some (JValue.int 2) :=
  ⟨overrides_last_write_wins ["--A.x=5".toList, "--A.x=2".toList]
      [("A".toList, [("x".toList, JValue.int 1)])]
      [("A".toList, [("x".toList, JValue.int 2)])]
      ("A".toList) ("x".toList) (by with_unfolding_all rfl),
   rfl⟩

theorem startsWithL_append_self (p r : Str) : startsWithL (p ++ r) p = true := by
  induction p with
  | nil => cases r <;> rfl
  | cons c t ih => simp [startsWithL, ih]

theorem containsSub_cons_of (c : Char) (t pat : Str) (h : containsSub t pat = true) :
    containsSub (c :: t) pat = true := by
  simp [containsSub, h]

theorem containsSub_of_startsWithL (l pat : Str) (h : startsWithL l pat = true) :
    containsSub l pat = true := by
  cases l with
  | nil => exact h
  | cons c t => simp [containsSub, h]

theorem containsSub_append_right (a b pat : Str) (h : containsSub b pat = true) :
    containsSub (a ++ b) pat = true := by
  induction a with
  | nil => exact h
  | cons c t ih => simp [containsSub, ih]

theorem spanNotQuote_append (n r : Str) (h : '"' ∉ n) :
    spanNotQuote (n ++ '"' :: r) = (n, '"' :: r) := by
  induction n with
  | nil => simp [spanNotQuote]
  | cons c t ih =>
    have hc : ¬ c = '"' := fun e => h (e ▸ List.mem_cons_self c t)
    have ht : '"' ∉ t := fun m => h (List.mem_cons_of_mem c m)
    simp [spanNotQuote, hc, ih ht]

theorem dropWhile_backslash_none (m : Str) (h : '\\' ∉ m) :
    m.dropWhile (fun c => c = '\\') = m := by
  cases m with
  | nil => rfl
  | cons c t =>
    have hc : ¬ c = '\\' := fun e => h (e ▸ List.mem_cons_self c t)
    simp [List.dropWhile_cons, hc]

theorem stripTrailingBackslashes_id (n : Str) (h : '\\' ∉ n) :
    stripTrailingBackslashes n = n := by
  rw [stripTrailingBackslashes, dropWhile_backslash_none, List.reverse_reverse]
  intro m
  exact h (List.mem_reverse.mp m)

theorem searchConflict_shape (pre n post : Str)
    (hpre : '"' ∉ pre) (hn : n ≠ []) (hnq : '"' ∉ n) :
    searchConflict (pre ++ '"' :: (n ++ '"' :: (" already exists".toList ++ post)))
      = some (stripTrailingBackslashes n) := by
  induction pre with
  | nil =>
    have hspan := spanNotQuote_append n (" already exists".toList ++ post) hnq
    have hne : n.isEmpty = false := by
      cases n with
      | nil => exact absurd rfl hn
      | cons c t => rfl
    simp only [List.nil_append, searchConflict, matchConflictAt, if_pos rfl, hspan, hne,
      startsWithL_append_self, Bool.false_eq_true, if_false, if_true]
  | cons c t ih =>
    have hc : ¬ c = '"' := fun e => hpre (e ▸ List.mem_cons_self c t)
    have ht : '"' ∉ t := fun m => hpre (List.mem_cons_of_mem c m)
    simpa [searchConflict, matchConflictAt, hc] using ih ht

theorem containsSub_conflict_shape (pre n post : Str) :
    containsSub (pre ++ '"' :: (n ++ '"' :: (" already exists".toList ++ post)))
      ("already exists".toList) = true := by
  apply containsSub_append_right
  have h1 : '"' :: (n ++ '"' :: (" already exists".toList ++ post))
      = ('"' :: n) ++ '"' :: ' ' :: ("already exists".toList ++ post) := by
    simp
  rw [h1]
  apply containsSub_append_right
  apply containsSub_cons_of
  apply containsSub_cons_of
  exact containsSub_of_startsWithL _ _ (startsWithL_append_self _ _)

/-- C1: when the backend rejects the submit with a message containing
`already exists`, the outcome is the terminal conflict exit; the
conflicting name is extracted by the pattern match whenever the message
contains a quoted name followed by `" already exists"` (first such
occurrence, trailing backslashes stripped — here stated for a clean quoted
name), and when the pattern matches nowhere in the message the name the
caller originally requested is used instead. -/
theorem conflict_extracts_or_falls_back :
    ∀ (cf : Option Str) (args : Option (List Str)) (name bento : Option Str) (dev wait : Bool)
      (timeout : Nat) (verify : DeploymentConfigParameters → Option Str) (backend : Backend)
      (scfg : ResolvedConfig) (e : BackendError),
      resolve_service_config cf args = .ok scfg →
      verify (buildConfigParams name bento dev scfg) = none →
      backend.createResult = .error e →
      ((∀ pre n post,
          e.msg = pre ++ '"' :: (n ++ '"' :: (" already exists".toList ++ post)) →
          '"' ∉ pre → n ≠ [] → '"' ∉ n → '\\' ∉ n →
          create_deployment cf args name bento dev wait timeout verify backend
            = (.conflictExit (some n), [.createCall])) ∧
       (containsSub e.msg ("already exists".toList) = true →
        searchConflict e.msg = none →
        create_deployment cf args name bento dev wait timeout verify backend
          = (.conflictExit name, [.createCall]))) := by
  intro cf args name bento dev wait timeout verify backend scfg e hres hver hcr
  constructor
  · intro pre n post hmsg hpre hn hnq hnb
    have hcontains : containsSub e.msg ("already exists".toList) = true := by
      rw [hmsg]; exact containsSub_conflict_shape pre n post
    have hsearch : searchConflict e.msg = some n := by
      rw [hmsg, searchConflict_shape pre n post hpre hn hnq,
        stripTrailingBackslashes_id n hnb]
    simp only [create_deployment, hres, hver, hcr, hcontains, hsearch]
    simp
  · intro hcontains hsearch
    simp only [create_deployment, hres, hver, hcr, hcontains, hsearch]
    simp

/-- Witness for C1: a message with a quoted name yields that name; a
message containing the phrase but no quoted-name pattern falls back to the
requested name. -/
theorem conflict_extracts_or_falls_back_witness :
    create_deployment none none (some ("req".toList)) none false false 10 (fun _ => none)
        ⟨.error ⟨409, "Deployment \"svc\" already exists in cluster".toList⟩,
         fun _ => .pending, fun _ => 0⟩
      = (.conflictExit (some ("svc".toList)), [.createCall]) ∧
    create_deployment none none (some ("req".toList)) none false false 10 (fun _ => none)
        ⟨.error ⟨409, "something already exists".toList⟩, fun _ => .pending, fun _ => 0⟩
      = (.conflictExit (some ("req".toList)), [.createCall]) :=
  ⟨(conflict_extracts_or_falls_back none none (some ("req".toList)) none false false 10
      (fun _ => none)
      ⟨.error ⟨409, "Deployment \"svc\" already exists in cluster".toList⟩,
       fun _ => .pending, fun _ => 0⟩
      [] ⟨409, "Deployment \"svc\" already exists in cluster".toList⟩ rfl rfl rfl).1
      ("Deployment ".toList) ("svc".toList) (" in cluster".toList)
      (by decide) (by decide) (by decide) (by decide) (by decide),
   (conflict_extracts_or_falls_back none none (some ("req".toList)) none false false 10
      (fun _ => none)
      ⟨.error ⟨409, "something already exists".toList⟩, fun _ => .pending, fun _ => 0⟩
      [] ⟨409, "something already exists".toList⟩ rfl rfl rfl).2
      (by decide) (by decide)⟩

theorem pollLoop_timeout_aux (status : Nat → PollStatus) (stepOf : Nat → Nat)
    (deadline B : Nat) (hstatus : ∀ t, status t = .pending) (hstep : ∀ t, stepOf t ≤ B) :
    ∀ (k now : Nat), now ≤ deadline → deadline + 1 - now ≤ k →
      (pollLoop status stepOf deadline now).1 = .timedOut ∧
      deadline < (pollLoop status stepOf deadline now).2 ∧
      (pollLoop status stepOf deadline now).2 ≤ deadline + B + 1 := by
  intro k
  induction k with
  | zero => intro now h1 h2; omega
  | succ k ih =>
    intro now h1 h2
    rw [pollLoop]
    rw [dif_neg (by omega : ¬ deadline < now), hstatus now]
    dsimp only
    by_cases hb : now + stepOf now + 1 ≤ deadline
    · exact ih (now + stepOf now + 1) hb (by omega)
    · rw [pollLoop, dif_pos (by omega : deadline < now + stepOf now + 1)]
      dsimp only
      have := hstep now
      exact ⟨rfl, by omega, by omega⟩

/-- C4: with `wait = true` and a backend that never reports ready, the poll
loop — whose deadline is fixed once before the first check — terminates
with the timed-out result at a clock value strictly past the deadline (not
before the bound) and at most one sleep-and-check step past it (not
unboundedly after), regardless of how many iterations ran or what latency
each status check had. -/
theorem wait_times_out_exactly_at_bound :
    ∀ (status : Nat → PollStatus) (stepOf : Nat → Nat) (deadline B : Nat),
      (∀ t, status t = .pending) →
      (∀ t, stepOf t ≤ B) →
      (pollLoop status stepOf deadline 0).1 = .timedOut ∧
      deadline < (pollLoop status stepOf deadline 0).2 ∧
      (pollLoop status stepOf deadline 0).2 ≤ deadline + B + 1 ∧
      (∀ (cf : Option Str) (args : Option (List Str)) (name bento : Option Str) (dev : Bool)
        (verify : DeploymentConfigParameters → Option Str) (scfg : ResolvedConfig)
        (d : Deployment),
        resolve_service_config cf args = .ok scfg →
        verify (buildConfigParams name bento dev scfg) = none →
        create_deployment cf args name bento dev true deadline verify
            ⟨.ok d, status, stepOf⟩
          = (.waitExit 1, [.createCall, .pollCall])) := by
  intro status stepOf deadline B hstatus hstep
  obtain ⟨htm, hlt, hle⟩ := pollLoop_timeout_aux status stepOf deadline B hstatus hstep
    (deadline + 1) 0 (Nat.zero_le _) (by omega)
  refine ⟨htm, hlt, hle, ?_⟩
  intro cf args name bento dev verify scfg d hres hver
  simp only [create_deployment, hres, hver, htm]
  simp [waitRetcode]

/-- Witness for C4: deadline 1, never-ready backend with two-tick polls —
the loop exits timed out at clock 2, strictly past the deadline and within
one step of it, and a concrete waiting create invocation over that backend
exits nonzero after the create and poll calls. -/
theorem wait_times_out_exactly_at_bound_witness :
    (pollLoop (fun _ => .pending) (fun _ => 1) 1 0).1 = .timedOut ∧
    1 < (pollLoop (fun _ => .pending) (fun _ => 1) 1 0).2 ∧
    (pollLoop (fun _ => .pending) (fun _ => 1) 1 0).2 ≤ 1 + 1 + 1 ∧
    create_deployment none none none none false true 1 (fun _ => none)
        ⟨.ok ⟨"svc".toList, "c".toList⟩, fun _ => .pending, fun _ => 1⟩
      = (.waitExit 1, [.createCall, .pollCall]) := by
  obtain ⟨h1, h2, h3, h4⟩ := wait_times_out_exactly_at_bound (fun _ => .pending) (fun _ => 1) 1 1
    (fun _ => rfl) (fun _ => Nat.le_refl 1)
  exact ⟨h1, h2, h3,
    h4 none none none none false (fun _ => none) [] ⟨"svc".toList, "c".toList⟩ rfl rfl⟩

end DynamoCLI
